import Mathlib

/-!
Shallow embedding of the mj-car rental backend (src/server.cjs, with the
near-duplicate variants src/unnamed/part_000..part_002).

Dates are modelled at day granularity as integers (the JS code normalizes
times to midnight with `setHours(0,0,0,0)` and iterates day by day, so a
calendar day is one integer).  Timestamps used by the late-return rule are
modelled in milliseconds, as in JS `Date` arithmetic.  Money amounts are
modelled as rationals (JS numbers; every amount the code produces is exact
in binary and in ℚ).
-/

namespace MjCar

/-- Booking lifecycle statuses (the JS string enum). -/
inductive BStatus
  | pending
  | confirmed
  | handed_over
  | in_use
  | overdue
  | returned
  | completed
  | cancelled
deriving DecidableEq, Repr

/-- Payment statuses (the JS string enum). -/
inductive PayStatus
  | pending
  | paid
  | failed
  | refunded
deriving DecidableEq, Repr

/-- A stored booking as seen by the availability queries:
`vehicleId`, `status`, `pickupDate`, `dropoffDate` (and `_id` for the
`excludeBookingId` filter). -/
structure Booking where
  id : Nat
  vehicleId : Nat
  status : BStatus
  pickupDate : Int
  dropoffDate : Int
deriving DecidableEq, Repr

/-- A vehicle record: `_id`, `quantity`, `isAvailable`. -/
structure Vehicle where
  id : Nat
  quantity : Int
  isAvailable : Bool
deriving DecidableEq, Repr

/-- The result record of `checkVehicleAvailability`
(`available`, `availableQuantity`, `vehicleQuantity`, `bookedQuantity`). -/
structure AvailResult where
  available : Bool
  availableQuantity : Int
  vehicleQuantity : Int
  bookedQuantity : Int
deriving DecidableEq, Repr

/-- The active-status filter of `checkVehicleAvailability`:
`status: { $in: ['confirmed', 'handed_over', 'in_use', 'overdue'] }`. -/
def activeStatuses : List BStatus :=
  [.confirmed, .handed_over, .in_use, .overdue]

/-- The inclusive date-overlap test of the Mongo query:
`pickupDate: { $lte: endDate }, dropoffDate: { $gte: startDate }`. -/
def overlapsRange (b : Booking) (startDate endDate : Int) : Bool :=
  decide (b.pickupDate ≤ endDate) && decide (startDate ≤ b.dropoffDate)

/-- The whole Mongo query of `checkVehicleAvailability`: same vehicle,
active status, date overlap, and optionally `_id: { $ne: excludeBookingId }`. -/
def matchesQuery (b : Booking) (vehicleId : Nat) (startDate endDate : Int)
    (excludeBookingId : Option Nat) : Bool :=
  decide (b.vehicleId = vehicleId) && activeStatuses.contains b.status &&
    overlapsRange b startDate endDate &&
    (match excludeBookingId with
     | some i => decide (b.id ≠ i)
     | none => true)

/-- The days `startDate, startDate+1, …, endDate` (inclusive), as produced by
the JS `while (currentDate <= endDate)` loop at day granularity. -/
def daysList (startDate endDate : Int) : List Int :=
  (List.range (endDate + 1 - startDate).toNat).map
    (fun (i : Nat) => startDate + (i : Int))

/-- One step of the inner counting loop: increment the per-day counter at day
`d` when `d` is a key of the map (`if (dateBookings[dateStr] !== undefined)`). -/
def incDay (counts : Int → Option Nat) (d : Int) : Int → Option Nat :=
  fun x => if x = d then (counts x).map (fun n => n + 1) else counts x

/-- The per-booking loop: walk the booking's own days
`bookingStart … bookingEnd` and bump every day that is a key of the map. -/
def addBookingDays (counts : Int → Option Nat) (b : Booking) : Int → Option Nat :=
  (daysList b.pickupDate b.dropoffDate).foldl incDay counts

/-- The day-by-day scan of `checkVehicleAvailability`: initialize a counter
map with one zero entry per day of the query range
(`dateBookings[dateStr] = 0`), walk every overlapping booking's own day
range (`addBookingDays`), collect the per-day values, and take
`bookingCounts.length > 0 ? Math.max(...bookingCounts) : 0`. -/
def scanMaxConcurrent (selected : List Booking) (startDate endDate : Int) : Nat :=
  let dateBookings : Int → Option Nat :=
    fun d => if startDate ≤ d ∧ d ≤ endDate then some 0 else none
  let finalCounts := selected.foldl addBookingDays dateBookings
  let bookingCounts :=
    (daysList startDate endDate).map (fun d => (finalCounts d).getD 0)
  if bookingCounts.isEmpty then 0 else bookingCounts.foldl Nat.max 0

/-- The helper `checkVehicleAvailability(vehicleId, startDate, endDate,
excludeBookingId)` from src/server.cjs (the identical copy lives in
src/unnamed/part_002).  `vehicles` and `bookings` stand for the two Mongo
collections. -/
def checkVehicleAvailability (vehicles : List Vehicle) (bookings : List Booking)
    (vehicleId : Nat) (startDate endDate : Int)
    (excludeBookingId : Option Nat) : AvailResult :=
  match vehicles.find? (fun v => v.id = vehicleId) with
  | none =>
    { available := false, availableQuantity := 0, vehicleQuantity := 0,
      bookedQuantity := 0 }
  | some vehicle =>
    -- `const quantity = Number(vehicle.quantity) || 1` (0 coerces to 1)
    let quantity : Int := if vehicle.quantity = 0 then 1 else vehicle.quantity
    let overlappingBookings :=
      bookings.filter
        (fun b => matchesQuery b vehicleId startDate endDate excludeBookingId)
    if overlappingBookings.isEmpty then
      { available := true, availableQuantity := quantity,
        vehicleQuantity := quantity, bookedQuantity := 0 }
    else
      let maxConcurrentBookings : Nat :=
        scanMaxConcurrent overlappingBookings startDate endDate
      let availableQuantity : Int := quantity - (maxConcurrentBookings : Int)
      { available := decide (availableQuantity > 0),
        availableQuantity := max 0 availableQuantity,
        vehicleQuantity := quantity,
        bookedQuantity := (maxConcurrentBookings : Int) }

/-- The general (day-by-day) path of `checkVehicleAvailability`, with the
`overlappingBookings.length === 0` short-circuit removed; used to state that
the short-circuit is a pure optimization. -/
def checkVehicleAvailabilityGeneral (vehicles : List Vehicle)
    (bookings : List Booking) (vehicleId : Nat) (startDate endDate : Int)
    (excludeBookingId : Option Nat) : AvailResult :=
  match vehicles.find? (fun v => v.id = vehicleId) with
  | none =>
    { available := false, availableQuantity := 0, vehicleQuantity := 0,
      bookedQuantity := 0 }
  | some vehicle =>
    let quantity : Int := if vehicle.quantity = 0 then 1 else vehicle.quantity
    let overlappingBookings :=
      bookings.filter
        (fun b => matchesQuery b vehicleId startDate endDate excludeBookingId)
    let maxConcurrentBookings : Nat :=
      scanMaxConcurrent overlappingBookings startDate endDate
    let availableQuantity : Int := quantity - (maxConcurrentBookings : Int)
    { available := decide (availableQuantity > 0),
      availableQuantity := max 0 availableQuantity,
      vehicleQuantity := quantity,
      bookedQuantity := (maxConcurrentBookings : Int) }

/-- Spec-side day occupancy: the number of bookings in `bs` whose own
inclusive range contains the day `d`. -/
def occupancy (bs : List Booking) (d : Int) : Nat :=
  (bs.filter (fun b => decide (b.pickupDate ≤ d) && decide (d ≤ b.dropoffDate))).length

/-- Spec-side maximum concurrent occupancy over the days of `[startDate, endDate]`. -/
def maxOccupancy (bs : List Booking) (startDate endDate : Int) : Nat :=
  ((daysList startDate endDate).map (occupancy bs)).foldl Nat.max 0

/-- The fleet-wide endpoint `POST /api/vehicles/availability` from
src/server.cjs (identical copy in src/unnamed/part_002).  `now` is the value
of `new Date()` at validation time; `none` models the 400 responses of the
two date validations.  The payload returned is `availableVehicleIds`. -/
def fleetAvailability (vehicles : List Vehicle) (bookings : List Booking)
    (startDate endDate now : Int) : Option (List Nat) :=
  if endDate ≤ startDate then none
  else if startDate < now then none
  else
    let allVehicles := vehicles.filter (fun v => v.isAvailable)
    let overlappingBookings :=
      bookings.filter (fun b =>
        decide (b.pickupDate ≤ endDate) && decide (startDate ≤ b.dropoffDate) &&
          [BStatus.confirmed, .handed_over, .in_use].contains b.status)
    let bookedVehicleIds := overlappingBookings.map (fun b => b.vehicleId)
    some (((allVehicles.filter
      (fun v => ! bookedVehicleIds.contains v.id)).map (fun v => v.id)))

/-- The legacy helper `checkVehicleAvailability(vehicleId, pickupDate,
dropoffDate)` of the router variant src/unnamed/part_001: it filters the
vehicle's bookings by date overlap and `status: { $in: ['confirmed',
'pending'] }` and reports `isAvailable = overlappingBookings.length === 0`
together with the conflicting date ranges. -/
def part001CheckVehicleAvailability (bookings : List Booking)
    (vehicleId : Nat) (pickupDate dropoffDate : Int) :
    Bool × List (Int × Int) :=
  let overlappingBookings :=
    bookings.filter (fun b =>
      decide (b.vehicleId = vehicleId) &&
        decide (b.pickupDate ≤ dropoffDate) &&
        decide (pickupDate ≤ b.dropoffDate) &&
        [BStatus.confirmed, .pending].contains b.status)
  (overlappingBookings.isEmpty,
   overlappingBookings.map (fun b => (b.pickupDate, b.dropoffDate)))

/-! ## Booking documents and lifecycle handlers -/

/-- Fuel-level descriptors, the keys of the `fuelLevels` lookup table. -/
inductive FuelLevel
  | empty
  | quarter
  | half
  | three_quarter
  | full
deriving DecidableEq, Repr

/-- The `fuelLevels` table of the return handler:
`{ empty: 0, quarter: 25, half: 50, three_quarter: 75, full: 100 }`. -/
def fuelLevels : FuelLevel → Int
  | .empty => 0
  | .quarter => 25
  | .half => 50
  | .three_quarter => 75
  | .full => 100

/-- A handover snapshot (`booking.handoverData`). -/
structure HandoverData where
  odometerReading : Int
  fuelLevel : FuelLevel
  conditionNotes : String
  handedOverBy : String
  customerSignature : String
  handedOverAt : Int
deriving DecidableEq, Repr

/-- One entry of the `charges` array built by the return handler. -/
structure ChargeEntry where
  chargeType : String
  description : String
  amount : ℚ
deriving DecidableEq, Repr

/-- A return snapshot (`booking.returnData`). -/
structure ReturnData where
  odometerReading : Int
  fuelLevel : FuelLevel
  conditionNotes : String
  returnStatus : String
  additionalCharges : List ChargeEntry
  totalAdditionalCharges : ℚ
  notes : String
  returnedBy : String
  returnedAt : Int
deriving DecidableEq, Repr

/-- One entry of `booking.statusHistory` ({status, timestamp, actionBy, notes};
the return handler's entry also repeats the surcharge total, which we keep
only inside `returnData`). -/
structure HistoryEntry where
  status : BStatus
  timestamp : Int
  actionBy : String
  notes : String
deriving DecidableEq, Repr

/-- A stored booking document, restricted to the fields the modelled
handlers read or write. -/
structure BookingDoc where
  bookingId : String
  vehicleId : Nat
  pickupDate : Int
  dropoffDate : Int
  totalDays : Int
  status : BStatus
  paymentStatus : PayStatus
  totalAmount : ℚ
  updatedAt : Int
  statusHistory : List HistoryEntry
  handoverData : Option HandoverData
  returnData : Option ReturnData
  cancellationReason : Option String
  refundAmount : ℚ
  cancelledAt : Option Int
  cancelledBy : Option String
  razorpayPaymentId : Option String
  razorpaySignature : Option String
  paymentTimestamp : Option Int
deriving DecidableEq, Repr

/-- The JS string of each status, used in default history notes. -/
def statusString : BStatus → String
  | .pending => "pending"
  | .confirmed => "confirmed"
  | .handed_over => "handed_over"
  | .in_use => "in_use"
  | .overdue => "overdue"
  | .returned => "returned"
  | .completed => "completed"
  | .cancelled => "cancelled"

/-- The `validTransitions` table of the status-update handler
(`PUT /api/admin/bookings/:identifier/status`).  The JS object has no
`completed` key; `validTransitions['completed']?.includes(s)` is then
`undefined`, which rejects every target exactly like an empty list. -/
def validTransitions : BStatus → List BStatus
  | .pending => [.confirmed, .cancelled]
  | .confirmed => [.handed_over, .cancelled]
  | .handed_over => [.in_use, .returned, .cancelled]
  | .in_use => [.returned, .overdue]
  | .returned => [.completed]
  | .overdue => [.returned, .completed]
  | .cancelled => []
  | .completed => []

/-- The error of the status-update handler, carrying the current and the
attempted status (`Invalid status transition from ${booking.status} to
${status}`). -/
inductive UpdateError
  | invalidTransition (fromStatus attemptedStatus : BStatus)
deriving DecidableEq, Repr

/-- The mutation performed by `PUT /api/admin/bookings/:identifier/status`:
validate against `validTransitions`, then set `status`, set `updatedAt`, and
push one `statusHistory` entry. -/
def updateBookingStatus (booking : BookingDoc) (newStatus : BStatus)
    (now : Int) (actionBy notes : Option String) :
    Except UpdateError BookingDoc :=
  if (validTransitions booking.status).contains newStatus then
    Except.ok { booking with
      status := newStatus,
      updatedAt := now,
      statusHistory := booking.statusHistory ++
        [{ status := newStatus, timestamp := now,
           actionBy := actionBy.getD "admin",
           notes := notes.getD
             ("Status changed from " ++ statusString booking.status ++
              " to " ++ statusString newStatus) }] }
  else
    Except.error (.invalidTransition booking.status newStatus)

/-- The document that remains stored after a status-update request: the
handler calls `booking.save()` only on the success path, so on error the
stored document is the original one. -/
def storedAfterStatusUpdate (booking : BookingDoc) (newStatus : BStatus)
    (now : Int) (actionBy notes : Option String) : BookingDoc :=
  match updateBookingStatus booking newStatus now actionBy notes with
  | .ok b => b
  | .error _ => booking

/-- The mutation performed by `POST /api/admin/bookings/:identifier/cancel`:
reject only `completed` and `cancelled` bookings, otherwise set
`status = 'cancelled'`, record the cancellation fields, and push one
`statusHistory` entry.  (This handler performs no `validTransitions`
check and does not touch `updatedAt`.) -/
def cancelBooking (booking : BookingDoc) (reason : Option String)
    (refundAmount : Option ℚ) (actionBy : Option String) (now : Int) :
    Except String BookingDoc :=
  if booking.status = .completed ∨ booking.status = .cancelled then
    Except.error ("Cannot cancel booking with status: " ++
      statusString booking.status)
  else
    Except.ok { booking with
      status := .cancelled,
      cancellationReason := reason,
      refundAmount := refundAmount.getD 0,
      cancelledAt := some now,
      cancelledBy := some (actionBy.getD "admin"),
      statusHistory := booking.statusHistory ++
        [{ status := .cancelled, timestamp := now,
           actionBy := actionBy.getD "admin",
           notes := reason.getD "Booking cancelled by admin" }] }

/-- The document that remains stored after a cancel request (the handler
saves only on success). -/
def storedAfterCancel (booking : BookingDoc) (reason : Option String)
    (refundAmount : Option ℚ) (actionBy : Option String) (now : Int) :
    BookingDoc :=
  match cancelBooking booking reason refundAmount actionBy now with
  | .ok b => b
  | .error _ => booking

/-- Case-insensitive substring test, the model of JS
`s.toLowerCase().includes(pat)` (the list-infix relation on the
lower-cased character sequences). -/
def strIncludesLower (s pat : String) : Bool :=
  decide ((pat.toList.map Char.toLower) <:+: (s.toList.map Char.toLower))

/-- The request body of `POST /api/admin/bookings/:identifier/return`.
A JS-falsy `odometerReading` (absent or 0) is modelled as 0; the optional
string/array fields are `Option`s. -/
structure ReturnRequest where
  odometerReading : Int
  fuelLevel : Option FuelLevel
  conditionNotes : Option String
  returnStatus : Option String
  additionalCharges : Option (List ChargeEntry)
  notes : Option String
  returnedBy : Option String
deriving DecidableEq, Repr

/-- The charge list and total computed inline by the return handler:
caller-supplied `additionalCharges`, then the fuel-shortfall rule, the
late-return rule, the extra-kilometre rule and the damage-keyword rule,
in that order.  `now` and the dates are in milliseconds, as in JS. -/
def computeReturnCharges (booking : BookingDoc) (req : ReturnRequest)
    (now : Int) : List ChargeEntry × ℚ :=
  let charges0 : List ChargeEntry := req.additionalCharges.getD []
  let total0 : ℚ := (charges0.map (fun c => c.amount)).sum
  -- fuel: `if (fuelLevel && booking.handoverData && booking.handoverData.fuelLevel)`
  let fuelPart : List ChargeEntry :=
    match req.fuelLevel, booking.handoverData with
    | some returnFuel, some hd =>
      let handoverLevel := fuelLevels hd.fuelLevel
      let returnLevel := fuelLevels returnFuel
      if returnLevel < handoverLevel then
        let fuelDifference := handoverLevel - returnLevel
        [{ chargeType := "fuel_replacement",
           description := "Fuel replacement for " ++ toString fuelDifference ++
             "% difference",
           amount := ((fuelDifference : ℚ) / 100) * 4 * 500 }]
      else []
    | _, _ => []
  -- late: `if (now > scheduledReturnDate)`, hours = ceil(ms / 3600000)
  let latePart : List ChargeEntry :=
    if booking.dropoffDate < now then
      let hoursLate : Int := ⌈((now - booking.dropoffDate : ℚ)) / (1000 * 60 * 60)⌉
      [{ chargeType := "late_return",
         description := "Late return by " ++ toString hoursLate ++ " hours",
         amount := (hoursLate : ℚ) * 200 }]
    else []
  -- km: `if (odometerReading && booking.handoverData && booking.handoverData.odometerReading)`
  let kmPart : List ChargeEntry :=
    match booking.handoverData with
    | some hd =>
      if req.odometerReading ≠ 0 ∧ hd.odometerReading ≠ 0 then
        let allowedKms :=
          (if booking.totalDays = 0 then 1 else booking.totalDays) * 300
        let extraKms := max 0 (req.odometerReading - hd.odometerReading - allowedKms)
        if 0 < extraKms then
          [{ chargeType := "extra_kilometers",
             description := toString extraKms ++ " extra kilometers",
             amount := (extraKms : ℚ) * 10 }]
        else []
      else []
    | none => []
  -- damage: `if (conditionNotes && conditionNotes.toLowerCase().includes('damage'))`
  let damagePart : List ChargeEntry :=
    match req.conditionNotes with
    | some notes =>
      if strIncludesLower notes "damage" then
        [{ chargeType := "damage_charge",
           description := "Vehicle damage noted",
           amount := 2000 }]
      else []
    | none => []
  let charges := charges0 ++ fuelPart ++ latePart ++ kmPart ++ damagePart
  let total := total0 + (fuelPart.map (fun c => c.amount)).sum +
    (latePart.map (fun c => c.amount)).sum +
    (kmPart.map (fun c => c.amount)).sum +
    (damagePart.map (fun c => c.amount)).sum
  (charges, total)

/-- The mutation performed by `POST /api/admin/bookings/:identifier/return`:
reject unless the status is `handed_over`, `in_use` or `overdue`; otherwise
compute the surcharges, set `status = 'returned'`, record the return
snapshot, add the surcharge total to `totalAmount`, and push one
`statusHistory` entry. -/
def returnVehicle (booking : BookingDoc) (req : ReturnRequest) (now : Int) :
    Except String BookingDoc :=
  if ¬ (booking.status = .handed_over ∨ booking.status = .in_use ∨
        booking.status = .overdue) then
    Except.error ("Booking cannot be returned from status: " ++
      statusString booking.status)
  else
    let computed := computeReturnCharges booking req now
    Except.ok { booking with
      status := .returned,
      returnData := some
        { odometerReading := req.odometerReading,
          fuelLevel := req.fuelLevel.getD .full,
          conditionNotes := req.conditionNotes.getD "Good condition",
          returnStatus := req.returnStatus.getD "good",
          additionalCharges := computed.1,
          totalAdditionalCharges := computed.2,
          notes := req.notes.getD "",
          returnedBy := req.returnedBy.getD "admin",
          returnedAt := now },
      totalAmount := booking.totalAmount + computed.2,
      statusHistory := booking.statusHistory ++
        [{ status := .returned, timestamp := now,
           actionBy := req.returnedBy.getD "admin",
           notes := "Vehicle returned by customer" }] }

/-- The handler `POST /api/verify-payment`: recompute the HMAC-SHA256 signature of
`orderId + "|" + paymentId` under the shared secret and compare it with the
supplied one.  The HMAC primitive itself lives in Node's `crypto` module,
outside this repository, so it is passed in as an abstract function.  On a
match: set the payment reference fields, `paymentStatus = 'paid'`,
`status = 'confirmed'`, and push one history entry; on a mismatch: a 400
error and no write. -/
def verifyPayment (hmacSha256 : String → String → String) (keySecret : String)
    (orderId paymentId signature : String) (booking : BookingDoc)
    (now : Int) : Except String BookingDoc :=
  let body := orderId ++ "|" ++ paymentId
  let expectedSignature := hmacSha256 keySecret body
  if expectedSignature = signature then
    Except.ok { booking with
      razorpayPaymentId := some paymentId,
      razorpaySignature := some signature,
      paymentStatus := .paid,
      status := .confirmed,
      paymentTimestamp := some now,
      statusHistory := booking.statusHistory ++
        [{ status := .confirmed, timestamp := now, actionBy := "system",
           notes := "Payment verified and booking confirmed" }] }
  else
    Except.error "Payment verification failed"

/-- The document that remains stored after a verify-payment request (the
handler saves only on the valid-signature path). -/
def storedAfterVerifyPayment (hmacSha256 : String → String → String)
    (keySecret orderId paymentId signature : String) (booking : BookingDoc)
    (now : Int) : BookingDoc :=
  match verifyPayment hmacSha256 keySecret orderId paymentId signature
      booking now with
  | .ok b => b
  | .error _ => booking

/-! ## Spec-side definitions and sample documents -/

/-- The transition table exactly as the spec's §4.2 states it, written from
the spec's words for comparison with the code's `validTransitions`. -/
def specAllowedTransitions : BStatus → List BStatus
  | .pending => [.confirmed, .cancelled]
  | .confirmed => [.handed_over, .cancelled]
  | .handed_over => [.in_use, .returned, .cancelled]
  | .in_use => [.returned, .overdue]
  | .overdue => [.returned, .completed]
  | .returned => [.completed]
  | .cancelled => []
  | .completed => []

/-- Spec-side fuel rule: `(handoverLevel − returnLevel)/100 × 4 × 500`. -/
def specFuelCharge (handoverLevel returnLevel : Int) : ℚ :=
  ((handoverLevel - returnLevel : Int) : ℚ) / 100 * 4 * 500

/-- Spec-side late rule: hours past the scheduled dropoff, rounded up
(times in milliseconds). -/
def specLateHours (scheduledDropoff now : Int) : Int :=
  ⌈((now : ℚ) - (scheduledDropoff : ℚ)) / (1000 * 60 * 60)⌉

/-- Spec-side distance rule: kilometres beyond `rentalDays × 300`. -/
def specExtraKms (handoverOdometer returnOdometer rentalDays : Int) : Int :=
  max 0 (returnOdometer - handoverOdometer - rentalDays * 300)

/-- A sample stored booking in status `confirmed`. -/
def sampleConfirmed : BookingDoc :=
  { bookingId := "MJ001", vehicleId := 1, pickupDate := 5, dropoffDate := 10,
    totalDays := 5, status := .confirmed, paymentStatus := .paid,
    totalAmount := 5000, updatedAt := 0, statusHistory := [],
    handoverData := none, returnData := none, cancellationReason := none,
    refundAmount := 0, cancelledAt := none, cancelledBy := none,
    razorpayPaymentId := none, razorpaySignature := none,
    paymentTimestamp := none }

/-- A sample stored booking in status `handed_over`, with a handover
snapshot on file. -/
def sampleHandedOver : BookingDoc :=
  { bookingId := "MJ002", vehicleId := 1, pickupDate := 5, dropoffDate := 0,
    totalDays := 3, status := .handed_over, paymentStatus := .paid,
    totalAmount := 5000, updatedAt := 0, statusHistory := [],
    handoverData := some
      { odometerReading := 10000, fuelLevel := .full,
        conditionNotes := "Good condition", handedOverBy := "admin",
        customerSignature := "digital_acceptance", handedOverAt := 0 },
    returnData := none, cancellationReason := none,
    refundAmount := 0, cancelledAt := none, cancelledBy := none,
    razorpayPaymentId := none, razorpaySignature := none,
    paymentTimestamp := none }

/-- A sample stored booking in status `in_use`. -/
def sampleInUse : BookingDoc :=
  { bookingId := "MJ003", vehicleId := 1, pickupDate := 5, dropoffDate := 10,
    totalDays := 5, status := .in_use, paymentStatus := .paid,
    totalAmount := 5000, updatedAt := 0, statusHistory := [],
    handoverData := none, returnData := none, cancellationReason := none,
    refundAmount := 0, cancelledAt := none, cancelledBy := none,
    razorpayPaymentId := none, razorpaySignature := none,
    paymentTimestamp := none }

/-- A sample stored booking in status `pending`, awaiting payment. -/
def samplePending : BookingDoc :=
  { bookingId := "MJ004", vehicleId := 1, pickupDate := 5, dropoffDate := 10,
    totalDays := 5, status := .pending, paymentStatus := .pending,
    totalAmount := 5000, updatedAt := 0, statusHistory := [],
    handoverData := none, returnData := none, cancellationReason := none,
    refundAmount := 0, cancelledAt := none, cancelledBy := none,
    razorpayPaymentId := none, razorpaySignature := none,
    paymentTimestamp := none }

/-- A sample return request: 11000 km on the clock, half a tank, clean
condition notes, no caller-supplied charges. -/
def sampleReturnReq : ReturnRequest :=
  { odometerReading := 11000, fuelLevel := some .half,
    conditionNotes := some "Good condition", returnStatus := none,
    additionalCharges := none, notes := none, returnedBy := none }

/-! ## Lemmas about the day-by-day occupancy scan -/

theorem daysList_mem (startDate endDate x : Int) :
    x ∈ daysList startDate endDate ↔ startDate ≤ x ∧ x ≤ endDate := by
  unfold daysList
  rw [List.mem_map]
  constructor
  · rintro ⟨i, hi, rfl⟩
    rw [List.mem_range] at hi
    omega
  · rintro ⟨h1, h2⟩
    refine ⟨(x - startDate).toNat, ?_, ?_⟩
    · rw [List.mem_range]
      omega
    · omega

theorem daysList_nodup (startDate endDate : Int) :
    (daysList startDate endDate).Nodup := by
  unfold daysList
  exact (List.nodup_range _).map (fun a b h => by omega)

theorem daysList_count (startDate endDate x : Int) :
    (daysList startDate endDate).count x =
      if startDate ≤ x ∧ x ≤ endDate then 1 else 0 := by
  by_cases h : startDate ≤ x ∧ x ≤ endDate
  · rw [if_pos h]
    exact List.count_eq_one_of_mem (daysList_nodup startDate endDate)
      ((daysList_mem startDate endDate x).mpr h)
  · rw [if_neg h]
    exact List.count_eq_zero_of_not_mem
      (fun hmem => h ((daysList_mem startDate endDate x).mp hmem))

theorem foldl_incDay (ds : List Int) (counts : Int → Option Nat) (x : Int) :
    (ds.foldl incDay counts) x = (counts x).map (fun n => n + ds.count x) := by
  induction ds generalizing counts with
  | nil =>
    simp only [List.foldl_nil, List.count_nil]
    cases counts x <;> simp
  | cons d ds ih =>
    rw [List.foldl_cons, ih]
    unfold incDay
    by_cases hx : x = d
    · subst hx
      rw [if_pos rfl, List.count_cons_self]
      cases counts x
      · simp
      · simp
        omega
    · rw [if_neg hx]
      have hbeq : (d == x) = false := beq_false_of_ne (Ne.symm hx)
      rw [List.count_cons, hbeq]
      simp

theorem occupancy_cons (b : Booking) (bs : List Booking) (d : Int) :
    occupancy (b :: bs) d =
      (if b.pickupDate ≤ d ∧ d ≤ b.dropoffDate then 1 else 0) + occupancy bs d := by
  unfold occupancy
  rw [List.filter_cons]
  by_cases h1 : b.pickupDate ≤ d
  · by_cases h2 : d ≤ b.dropoffDate
    · simp [h1, h2, Nat.add_comm]
    · simp [h1, h2]
  · simp [h1]

theorem addBookingDays_apply (counts : Int → Option Nat) (b : Booking) (x : Int) :
    (addBookingDays counts b) x =
      (counts x).map (fun n =>
        n + if b.pickupDate ≤ x ∧ x ≤ b.dropoffDate then 1 else 0) := by
  unfold addBookingDays
  rw [foldl_incDay, daysList_count]

theorem foldl_addBookingDays (bs : List Booking) (counts : Int → Option Nat)
    (x : Int) :
    (bs.foldl addBookingDays counts) x = (counts x).map (fun n => n + occupancy bs x) := by
  induction bs generalizing counts with
  | nil =>
    simp only [List.foldl_nil]
    unfold occupancy
    cases counts x <;> simp
  | cons b bs ih =>
    rw [List.foldl_cons, ih, addBookingDays_apply, occupancy_cons]
    cases counts x
    · simp
    · simp
      omega

theorem foldl_max_le {l : List Nat} {m a : Nat} (ha : a ≤ m)
    (h : ∀ x ∈ l, x ≤ m) : l.foldl Nat.max a ≤ m := by
  induction l generalizing a with
  | nil => simpa using ha
  | cons y l ih =>
    rw [List.foldl_cons]
    exact ih (Nat.max_le.mpr ⟨ha, h y (List.mem_cons_self y l)⟩)
      (fun x hx => h x (List.mem_cons_of_mem y hx))

theorem le_foldl_max (l : List Nat) (a : Nat) : a ≤ l.foldl Nat.max a := by
  induction l generalizing a with
  | nil => simp
  | cons y l ih =>
    rw [List.foldl_cons]
    exact le_trans (Nat.le_max_left a y) (ih (Nat.max a y))

theorem foldl_max_le_of_mem {l : List Nat} {x : Nat} (hx : x ∈ l) (a : Nat) :
    x ≤ l.foldl Nat.max a := by
  induction l generalizing a with
  | nil => cases hx
  | cons y l ih =>
    rw [List.foldl_cons]
    rcases List.mem_cons.mp hx with rfl | hx
    · exact le_trans (Nat.le_max_right a x) (le_foldl_max l (Nat.max a x))
    · exact ih hx _

theorem foldl_max_eq_or_mem (l : List Nat) (a : Nat) :
    l.foldl Nat.max a = a ∨ l.foldl Nat.max a ∈ l := by
  induction l generalizing a with
  | nil => simp
  | cons y l ih =>
    rw [List.foldl_cons]
    rcases ih (Nat.max a y) with h | h
    · by_cases hay : a ≤ y
      · right
        have hm : Nat.max a y = y := max_eq_right hay
        rw [h, hm]
        exact List.mem_cons_self y l
      · left
        have hm : Nat.max a y = a := max_eq_left (Nat.le_of_not_le hay)
        rw [h, hm]
    · right
      exact List.mem_cons_of_mem y h

theorem foldl_max_mono {l : List Int} {f g : Int → Nat} {a b : Nat}
    (hab : a ≤ b) (h : ∀ x ∈ l, f x ≤ g x) :
    (l.map f).foldl Nat.max a ≤ (l.map g).foldl Nat.max b := by
  induction l generalizing a b with
  | nil => simpa using hab
  | cons y l ih =>
    simp only [List.map_cons, List.foldl_cons]
    exact ih (max_le_max hab (h y (List.mem_cons_self y l)))
      (fun x hx => h x (List.mem_cons_of_mem y hx))

theorem maxOccupancy_nil (startDate endDate : Int) :
    maxOccupancy [] startDate endDate = 0 := by
  unfold maxOccupancy
  have h : ∀ x ∈ (daysList startDate endDate).map (occupancy []), x ≤ 0 := by
    intro x hx
    rcases List.mem_map.mp hx with ⟨d, _, rfl⟩
    simp [occupancy]
  exact Nat.le_antisymm (foldl_max_le (Nat.le_refl 0) h) (Nat.zero_le _)

/-- Every day occupancy over `[startDate, endDate]` is bounded by `maxOccupancy`. -/
theorem occupancy_le_maxOccupancy (bs : List Booking) {startDate endDate d : Int}
    (h1 : startDate ≤ d) (h2 : d ≤ endDate) :
    occupancy bs d ≤ maxOccupancy bs startDate endDate := by
  unfold maxOccupancy
  exact foldl_max_le_of_mem
    (List.mem_map.mpr ⟨d, (daysList_mem startDate endDate d).mpr ⟨h1, h2⟩, rfl⟩) 0

/-- The value `maxOccupancy` is either 0 or attained on some day of the range. -/
theorem maxOccupancy_attained (bs : List Booking) (startDate endDate : Int) :
    maxOccupancy bs startDate endDate = 0 ∨
      ∃ d, startDate ≤ d ∧ d ≤ endDate ∧
        occupancy bs d = maxOccupancy bs startDate endDate := by
  unfold maxOccupancy
  rcases foldl_max_eq_or_mem
      ((daysList startDate endDate).map (occupancy bs)) 0 with h | h
  · left; exact h
  · right
    rcases List.mem_map.mp h with ⟨d, hd, hocc⟩
    rcases (daysList_mem startDate endDate d).mp hd with ⟨h1, h2⟩
    exact ⟨d, h1, h2, hocc⟩

/-- The imperative day-by-day scan computes exactly the maximal day
occupancy over the query range. -/
theorem scanMaxConcurrent_eq (selected : List Booking) (startDate endDate : Int) :
    scanMaxConcurrent selected startDate endDate =
      maxOccupancy selected startDate endDate := by
  simp only [scanMaxConcurrent]
  have hmap : (daysList startDate endDate).map (fun d =>
      ((selected.foldl addBookingDays (fun d =>
        if startDate ≤ d ∧ d ≤ endDate then some 0 else none)) d).getD 0) =
      (daysList startDate endDate).map (occupancy selected) := by
    apply List.map_congr_left
    intro d hd
    rcases (daysList_mem startDate endDate d).mp hd with ⟨h1, h2⟩
    rw [foldl_addBookingDays]
    simp [h1, h2]
  rw [hmap]
  by_cases hde : ((daysList startDate endDate).map (occupancy selected)).isEmpty
  · rw [if_pos hde]
    unfold maxOccupancy
    rw [List.isEmpty_iff.mp hde]
    rfl
  · rw [if_neg hde]
    rfl

/-- The computed result of `checkVehicleAvailability`, in closed form: with a
found vehicle of positive quantity, every field is determined by the maximal
day occupancy of the query-matching bookings over the query range (this
covers both the short-circuit and the day-by-day path). -/
theorem checkVehicleAvailability_closed_form (vehicles : List Vehicle)
    (bookings : List Booking) (vehicleId : Nat) (startDate endDate : Int)
    (excludeBookingId : Option Nat) (v : Vehicle)
    (hfind : vehicles.find? (fun w => w.id = vehicleId) = some v)
    (hq : 1 ≤ v.quantity) :
    checkVehicleAvailability vehicles bookings vehicleId startDate endDate
        excludeBookingId =
      { available := decide (0 < v.quantity -
          (maxOccupancy (bookings.filter (fun b =>
            matchesQuery b vehicleId startDate endDate excludeBookingId))
            startDate endDate : Int)),
        availableQuantity := max 0 (v.quantity -
          (maxOccupancy (bookings.filter (fun b =>
            matchesQuery b vehicleId startDate endDate excludeBookingId))
            startDate endDate : Int)),
        vehicleQuantity := v.quantity,
        bookedQuantity :=
          (maxOccupancy (bookings.filter (fun b =>
            matchesQuery b vehicleId startDate endDate excludeBookingId))
            startDate endDate : Int) } := by
  have hq0 : ¬ v.quantity = 0 := by omega
  unfold checkVehicleAvailability
  rw [hfind]
  simp only [scanMaxConcurrent_eq, if_neg hq0]
  by_cases hemp : (bookings.filter (fun b =>
      matchesQuery b vehicleId startDate endDate excludeBookingId)).isEmpty
  · rw [if_pos hemp, List.isEmpty_iff.mp hemp, maxOccupancy_nil]
    have h1 : (0 : Int) < v.quantity := by omega
    have h2 : max 0 v.quantity = v.quantity := max_eq_right (by omega)
    simp [h1, h2]
  · rw [if_neg hemp]

/-! ## Claim theorems -/

/-- C1: for a vehicle with quantity ≥ 1, a list of active bookings of that
vehicle, and a query range `[startDate, endDate]` with `startDate ≤ endDate`,
`checkVehicleAvailability` selects exactly the bookings passing the inclusive
overlap test `pickup ≤ queryEnd ∧ dropoff ≥ queryStart`, its
`bookedQuantity` is the maximum over the days `d` of the range of the number
of selected bookings whose own range contains `d`, its `availableQuantity`
is `max 0 (quantity − bookedQuantity)`, and the range is reported available
iff `quantity − bookedQuantity > 0`. -/
theorem availability_engine_correct (vehicles : List Vehicle)
    (bookings : List Booking) (vehicleId : Nat) (startDate endDate : Int)
    (v : Vehicle)
    (hfind : vehicles.find? (fun w => w.id = vehicleId) = some v)
    (hQ : 1 ≤ v.quantity)
    (hvid : ∀ b ∈ bookings, b.vehicleId = vehicleId)
    (hact : ∀ b ∈ bookings, activeStatuses.contains b.status)
    (hse : startDate ≤ endDate) :
    bookings.filter (fun b => matchesQuery b vehicleId startDate endDate none) =
      bookings.filter (fun b => overlapsRange b startDate endDate) ∧
    (∀ d, startDate ≤ d → d ≤ endDate →
      (occupancy (bookings.filter (fun b => overlapsRange b startDate endDate)) d : Int) ≤
        (checkVehicleAvailability vehicles bookings vehicleId startDate endDate
          none).bookedQuantity) ∧
    (∃ d, startDate ≤ d ∧ d ≤ endDate ∧
      (occupancy (bookings.filter (fun b => overlapsRange b startDate endDate)) d : Int) =
        (checkVehicleAvailability vehicles bookings vehicleId startDate endDate
          none).bookedQuantity) ∧
    (checkVehicleAvailability vehicles bookings vehicleId startDate endDate
        none).availableQuantity =
      max 0 (v.quantity - (checkVehicleAvailability vehicles bookings vehicleId
        startDate endDate none).bookedQuantity) ∧
    ((checkVehicleAvailability vehicles bookings vehicleId startDate endDate
        none).available = true ↔
      0 < v.quantity - (checkVehicleAvailability vehicles bookings vehicleId
        startDate endDate none).bookedQuantity) ∧
    (checkVehicleAvailability vehicles bookings vehicleId startDate endDate
        none).vehicleQuantity = v.quantity := by
  have hfilter : bookings.filter
      (fun b => matchesQuery b vehicleId startDate endDate none) =
      bookings.filter (fun b => overlapsRange b startDate endDate) := by
    apply List.filter_congr
    intro b hb
    simp [matchesQuery, hvid b hb, hact b hb]
    intro _
    simpa using hact b hb
  have hcf := checkVehicleAvailability_closed_form vehicles bookings vehicleId
    startDate endDate none v hfind hQ
  rw [hfilter] at hcf
  refine ⟨hfilter, ?_, ?_, ?_, ?_, ?_⟩
  · intro d h1 h2
    rw [hcf]
    dsimp only
    exact_mod_cast occupancy_le_maxOccupancy _ h1 h2
  · rcases maxOccupancy_attained
        (bookings.filter (fun b => overlapsRange b startDate endDate))
        startDate endDate with h0 | ⟨d, h1, h2, h3⟩
    · refine ⟨startDate, le_refl _, hse, ?_⟩
      rw [hcf]
      dsimp only
      have hle := occupancy_le_maxOccupancy
        (bookings.filter (fun b => overlapsRange b startDate endDate))
        (le_refl startDate) hse
      rw [h0] at hle ⊢
      simp [Nat.le_zero.mp hle]
    · refine ⟨d, h1, h2, ?_⟩
      rw [hcf]
      dsimp only
      exact_mod_cast h3
  · rw [hcf]
  · rw [hcf]
    dsimp only
    simp
  · rw [hcf]

/-- C1 witness: the spec's concrete scenario 1 — quantity 2, one active
booking on days 5–10, query 8–12. -/
theorem availability_engine_correct_witness :
    (checkVehicleAvailability [⟨1, 2, true⟩] [⟨10, 1, .confirmed, 5, 10⟩]
        1 8 12 none).availableQuantity =
      max 0 (2 - (checkVehicleAvailability [⟨1, 2, true⟩]
        [⟨10, 1, .confirmed, 5, 10⟩] 1 8 12 none).bookedQuantity) :=
  (availability_engine_correct [⟨1, 2, true⟩] [⟨10, 1, .confirmed, 5, 10⟩]
    1 8 12 ⟨1, 2, true⟩ (by decide) (by decide) (by decide) (by decide)
    (by decide)).2.2.2.1

/-- C2 (amended core part): a booking whose status is `pending` or
`cancelled` is invisible to `checkVehicleAvailability` — adding it to the
stored set leaves the whole result unchanged, for every vehicle, range and
exclusion, so it can never reduce `availableQuantity` there. -/
theorem pending_cancelled_excluded (vehicles : List Vehicle)
    (bookings : List Booking) (b : Booking) (vehicleId : Nat)
    (startDate endDate : Int) (excl : Option Nat)
    (hb : b.status = .pending ∨ b.status = .cancelled) :
    checkVehicleAvailability vehicles (b :: bookings) vehicleId startDate
        endDate excl =
      checkVehicleAvailability vehicles bookings vehicleId startDate endDate
        excl := by
  unfold checkVehicleAvailability
  have hmatch : matchesQuery b vehicleId startDate endDate excl = false := by
    rcases hb with h | h <;> simp [matchesQuery, activeStatuses, h]
  have hfilter : (b :: bookings).filter
      (fun x => matchesQuery x vehicleId startDate endDate excl) =
      bookings.filter (fun x => matchesQuery x vehicleId startDate endDate excl) := by
    rw [List.filter_cons, hmatch]
    simp
  rw [hfilter]

/-- C2 witness: a pending booking covering the whole query range does not
change the result on the spec's scenario-1 configuration. -/
theorem pending_cancelled_excluded_witness :
    checkVehicleAvailability [⟨1, 2, true⟩]
        (⟨11, 1, .pending, 8, 12⟩ :: [⟨10, 1, .confirmed, 5, 10⟩]) 1 8 12 none =
      checkVehicleAvailability [⟨1, 2, true⟩] [⟨10, 1, .confirmed, 5, 10⟩]
        1 8 12 none :=
  pending_cancelled_excluded [⟨1, 2, true⟩] [⟨10, 1, .confirmed, 5, 10⟩]
    ⟨11, 1, .pending, 8, 12⟩ 1 8 12 none (Or.inl rfl)

/-- C2 counterexample: not every availability check in the repository
restricts itself to the active set — the router variant in
src/unnamed/part_001 counts `pending` bookings (`status: { $in:
['confirmed', 'pending'] }`), so adding an overlapping pending booking
flips its reported availability from true to false. -/
theorem pending_reduces_part001_availability :
    (part001CheckVehicleAvailability [⟨10, 1, .pending, 5, 10⟩] 1 8 12).1 = false ∧
    (part001CheckVehicleAvailability [] 1 8 12).1 = true ∧
    (⟨10, 1, .pending, 5, 10⟩ : Booking).status = .pending := by
  decide

/-- Adding a booking in front of the set can only raise the maximal occupancy. -/
theorem maxOccupancy_le_cons (b : Booking) (bs : List Booking)
    (startDate endDate : Int) :
    maxOccupancy bs startDate endDate ≤ maxOccupancy (b :: bs) startDate endDate := by
  unfold maxOccupancy
  apply foldl_max_mono (le_refl 0)
  intro d _
  rw [occupancy_cons]
  omega

/-- C7: for a vehicle with quantity ≥ 1, adding a booking `b` to the stored
set never increases `availableQuantity` when `b` is active and overlaps the
query range, and leaves the whole result unchanged when `b` does not overlap
the query range. -/
theorem availability_monotone (vehicles : List Vehicle)
    (bookings : List Booking) (b : Booking) (vehicleId : Nat)
    (startDate endDate : Int) (v : Vehicle)
    (hfind : vehicles.find? (fun w => w.id = vehicleId) = some v)
    (hQ : 1 ≤ v.quantity) :
    (activeStatuses.contains b.status = true →
      overlapsRange b startDate endDate = true →
      (checkVehicleAvailability vehicles (b :: bookings) vehicleId startDate
        endDate none).availableQuantity ≤
      (checkVehicleAvailability vehicles bookings vehicleId startDate endDate
        none).availableQuantity) ∧
    (overlapsRange b startDate endDate = false →
      checkVehicleAvailability vehicles (b :: bookings) vehicleId startDate
        endDate none =
      checkVehicleAvailability vehicles bookings vehicleId startDate endDate
        none) := by
  constructor
  · intro _ _
    have hcf1 := checkVehicleAvailability_closed_form vehicles (b :: bookings)
      vehicleId startDate endDate none v hfind hQ
    have hcf2 := checkVehicleAvailability_closed_form vehicles bookings
      vehicleId startDate endDate none v hfind hQ
    rw [hcf1, hcf2]
    dsimp only
    apply max_le_max (le_refl 0)
    have hmono : maxOccupancy (bookings.filter (fun x =>
        matchesQuery x vehicleId startDate endDate none)) startDate endDate ≤
        maxOccupancy ((b :: bookings).filter (fun x =>
        matchesQuery x vehicleId startDate endDate none)) startDate endDate := by
      rw [List.filter_cons]
      by_cases hm : matchesQuery b vehicleId startDate endDate none = true
      · rw [hm]
        simp only [if_pos]
        exact maxOccupancy_le_cons _ _ _ _
      · rw [Bool.not_eq_true] at hm
        rw [hm]
        simp
    omega
  · intro hov
    have hmatch : matchesQuery b vehicleId startDate endDate none = false := by
      simp [matchesQuery, hov]
    unfold checkVehicleAvailability
    have hfilter : (b :: bookings).filter
        (fun x => matchesQuery x vehicleId startDate endDate none) =
        bookings.filter (fun x => matchesQuery x vehicleId startDate endDate none) := by
      rw [List.filter_cons, hmatch]
      simp
    rw [hfilter]

/-- C7 witness: the spec's concrete scenario 2 — adding an active one-day
booking on day 9 can only lower the availability of the query 8–12. -/
theorem availability_monotone_witness :
    (checkVehicleAvailability [⟨1, 2, true⟩]
        (⟨11, 1, .confirmed, 9, 9⟩ :: [⟨10, 1, .confirmed, 5, 10⟩])
        1 8 12 none).availableQuantity ≤
      (checkVehicleAvailability [⟨1, 2, true⟩] [⟨10, 1, .confirmed, 5, 10⟩]
        1 8 12 none).availableQuantity :=
  (availability_monotone [⟨1, 2, true⟩] [⟨10, 1, .confirmed, 5, 10⟩]
    ⟨11, 1, .confirmed, 9, 9⟩ 1 8 12 ⟨1, 2, true⟩ (by decide) (by decide)).1
    (by decide) (by decide)

/-- C8: with zero overlapping active bookings, `checkVehicleAvailability`
short-circuits to `availableQuantity = quantity`, and this result is
identical to the one of the general day-by-day path on the same inputs. -/
theorem short_circuit_equiv (vehicles : List Vehicle) (bookings : List Booking)
    (vehicleId : Nat) (startDate endDate : Int) (excl : Option Nat)
    (v : Vehicle)
    (hfind : vehicles.find? (fun w => w.id = vehicleId) = some v)
    (hQ : 1 ≤ v.quantity)
    (hnone : bookings.filter
      (fun b => matchesQuery b vehicleId startDate endDate excl) = []) :
    checkVehicleAvailability vehicles bookings vehicleId startDate endDate excl =
      { available := true, availableQuantity := v.quantity,
        vehicleQuantity := v.quantity, bookedQuantity := 0 } ∧
    checkVehicleAvailability vehicles bookings vehicleId startDate endDate excl =
      checkVehicleAvailabilityGeneral vehicles bookings vehicleId startDate
        endDate excl := by
  have hq0 : ¬ v.quantity = 0 := by omega
  have h1 : checkVehicleAvailability vehicles bookings vehicleId startDate
      endDate excl =
      { available := true, availableQuantity := v.quantity,
        vehicleQuantity := v.quantity, bookedQuantity := 0 } := by
    unfold checkVehicleAvailability
    rw [hfind]
    simp only [if_neg hq0, hnone]
    simp
  have h2 : checkVehicleAvailabilityGeneral vehicles bookings vehicleId
      startDate endDate excl =
      { available := true, availableQuantity := v.quantity,
        vehicleQuantity := v.quantity, bookedQuantity := 0 } := by
    unfold checkVehicleAvailabilityGeneral
    rw [hfind]
    simp only [if_neg hq0, hnone, scanMaxConcurrent_eq, maxOccupancy_nil]
    have hlt : (0 : Int) < v.quantity := by omega
    have hmax : max 0 v.quantity = v.quantity := max_eq_right (by omega)
    simp [hlt, hmax]
  exact ⟨h1, h1.trans h2.symm⟩

/-- C8 witness: a range overlapped only by a pending booking takes the
short-circuit and agrees with the general path. -/
theorem short_circuit_equiv_witness :
    checkVehicleAvailability [⟨1, 3, true⟩] [⟨10, 1, .pending, 5, 10⟩]
        1 8 12 none =
      checkVehicleAvailabilityGeneral [⟨1, 3, true⟩] [⟨10, 1, .pending, 5, 10⟩]
        1 8 12 none :=
  (short_circuit_equiv [⟨1, 3, true⟩] [⟨10, 1, .pending, 5, 10⟩] 1 8 12 none
    ⟨1, 3, true⟩ (by decide) (by decide) (by decide)).2

/-- C3: the code's transition table agrees with the claimed one, and for
every booking and every target outside the allowed set of its current
status, the generic status update fails with an invalid-transition error
carrying (fromState, attemptedState) and the stored document is unchanged
in every field. -/
theorem invalid_transition_rejected (booking : BookingDoc) (target : BStatus)
    (now : Int) (actionBy notes : Option String)
    (hnot : target ∉ validTransitions booking.status) :
    (∀ s, validTransitions s = specAllowedTransitions s) ∧
    updateBookingStatus booking target now actionBy notes =
      Except.error (.invalidTransition booking.status target) ∧
    storedAfterStatusUpdate booking target now actionBy notes = booking := by
  have h : updateBookingStatus booking target now actionBy notes =
      Except.error (.invalidTransition booking.status target) := by
    unfold updateBookingStatus
    rw [if_neg (by simpa using hnot)]
  refine ⟨by intro s; cases s <;> rfl, h, ?_⟩
  unfold storedAfterStatusUpdate
  rw [h]

/-- C3 witness: the spec's concrete scenario 4 — a `confirmed` booking asked
to jump directly to `in_use` is rejected and left untouched. -/
theorem invalid_transition_rejected_witness :
    (∀ s, validTransitions s = specAllowedTransitions s) ∧
    updateBookingStatus sampleConfirmed .in_use 100 none none =
      Except.error (.invalidTransition .confirmed .in_use) ∧
    storedAfterStatusUpdate sampleConfirmed .in_use 100 none none =
      sampleConfirmed :=
  invalid_transition_rejected sampleConfirmed .in_use 100 none none (by decide)

/-- C10: every allowed transition through the generic status update changes
only `status` and `updatedAt` and appends exactly one history entry; the
amount, handover, return, cancellation and payment fields are all unchanged
(so a generic transition to `returned` computes no surcharges and a generic
transition to `cancelled` records no cancellation data). -/
theorem status_update_frame (booking : BookingDoc) (target : BStatus)
    (now : Int) (actionBy notes : Option String)
    (hallow : target ∈ validTransitions booking.status) :
    ∃ b', updateBookingStatus booking target now actionBy notes = Except.ok b' ∧
      b'.status = target ∧
      b'.updatedAt = now ∧
      b'.statusHistory = booking.statusHistory ++
        [{ status := target, timestamp := now,
           actionBy := actionBy.getD "admin",
           notes := notes.getD ("Status changed from " ++
             statusString booking.status ++ " to " ++ statusString target) }] ∧
      b'.totalAmount = booking.totalAmount ∧
      b'.handoverData = booking.handoverData ∧
      b'.returnData = booking.returnData ∧
      b'.cancellationReason = booking.cancellationReason ∧
      b'.refundAmount = booking.refundAmount ∧
      b'.cancelledAt = booking.cancelledAt ∧
      b'.cancelledBy = booking.cancelledBy ∧
      b'.paymentStatus = booking.paymentStatus := by
  have h : updateBookingStatus booking target now actionBy notes =
      Except.ok { booking with
        status := target,
        updatedAt := now,
        statusHistory := booking.statusHistory ++
          [{ status := target, timestamp := now,
             actionBy := actionBy.getD "admin",
             notes := notes.getD ("Status changed from " ++
               statusString booking.status ++ " to " ++ statusString target) }] } := by
    unfold updateBookingStatus
    rw [if_pos (by simpa using hallow)]
  exact ⟨_, h, rfl, rfl, rfl, rfl, rfl, rfl, rfl, rfl, rfl, rfl, rfl⟩

/-- C10 witness: driving a handed-over booking to `returned` through the
generic status update leaves the amount and the return snapshot untouched —
no surcharge is computed on this path. -/
theorem status_update_frame_witness :
    ∃ b', updateBookingStatus sampleHandedOver .returned 100 none none =
        Except.ok b' ∧
      b'.status = .returned ∧
      b'.updatedAt = 100 ∧
      b'.statusHistory = sampleHandedOver.statusHistory ++
        [{ status := .returned, timestamp := 100,
           actionBy := (none : Option String).getD "admin",
           notes := (none : Option String).getD ("Status changed from " ++
             statusString sampleHandedOver.status ++ " to " ++
             statusString .returned) }] ∧
      b'.totalAmount = sampleHandedOver.totalAmount ∧
      b'.handoverData = sampleHandedOver.handoverData ∧
      b'.returnData = sampleHandedOver.returnData ∧
      b'.cancellationReason = sampleHandedOver.cancellationReason ∧
      b'.refundAmount = sampleHandedOver.refundAmount ∧
      b'.cancelledAt = sampleHandedOver.cancelledAt ∧
      b'.cancelledBy = sampleHandedOver.cancelledBy ∧
      b'.paymentStatus = sampleHandedOver.paymentStatus :=
  status_update_frame sampleHandedOver .returned 100 none none (by decide)

/-- C4 (amended): through the generic status update, `cancelled` is
reachable exactly from `pending`, `confirmed` and `handed_over`; but the
dedicated cancel endpoint rejects only `completed` and `cancelled` bookings
(so it happily cancels `in_use`, `overdue` and `returned` ones), leaving the
document unchanged exactly in the rejected cases. -/
theorem cancellation_policy (booking : BookingDoc) (reason : Option String)
    (refundAmount : Option ℚ) (actionBy : Option String) (now : Int) :
    (∀ s, BStatus.cancelled ∈ validTransitions s ↔
      (s = .pending ∨ s = .confirmed ∨ s = .handed_over)) ∧
    ((∃ b', cancelBooking booking reason refundAmount actionBy now =
        Except.ok b') ↔
      (booking.status ≠ .completed ∧ booking.status ≠ .cancelled)) ∧
    (booking.status = .completed ∨ booking.status = .cancelled →
      storedAfterCancel booking reason refundAmount actionBy now = booking) := by
  refine ⟨by intro s; cases s <;> decide, ?_, ?_⟩
  · unfold cancelBooking
    by_cases h : booking.status = .completed ∨ booking.status = .cancelled
    · rw [if_pos h]
      constructor
      · rintro ⟨b', hb'⟩
        cases hb'
      · intro hne
        rcases h with h | h
        · exact (hne.1 h).elim
        · exact (hne.2 h).elim
    · rw [if_neg h]
      push_neg at h
      simp [h]
  · intro h
    unfold storedAfterCancel cancelBooking
    rw [if_pos h]

/-- C4 counterexample: the dedicated cancel endpoint accepts a booking in
status `in_use` — the claimed failure of every cancellation request against
`in_use` does not hold of the code. -/
theorem cancel_accepts_in_use :
    (cancelBooking sampleInUse none none none 100).isOk = true ∧
    sampleInUse.status = .in_use := by
  constructor
  · rfl
  · rfl

/-- C4 witness: the amended policy, applied to the `in_use` sample — the
generic table still excludes `cancelled` from `in_use`, while the endpoint
accepts the cancellation. -/
theorem cancellation_policy_witness :
    (∀ s, BStatus.cancelled ∈ validTransitions s ↔
      (s = .pending ∨ s = .confirmed ∨ s = .handed_over)) ∧
    ((∃ b', cancelBooking sampleInUse none none none 100 = Except.ok b') ↔
      (sampleInUse.status ≠ .completed ∧ sampleInUse.status ≠ .cancelled)) ∧
    (sampleInUse.status = .completed ∨ sampleInUse.status = .cancelled →
      storedAfterCancel sampleInUse none none none 100 = sampleInUse) :=
  cancellation_policy sampleInUse none none none 100

/-- C6: when the supplied signature differs from the HMAC of
`orderId|paymentId` under the shared secret, payment verification surfaces
an error and the stored booking is completely unchanged; when it matches,
the pending booking is moved to `confirmed` with `paymentStatus = paid` and
the payment reference recorded. -/
theorem payment_verification (hmacSha256 : String → String → String)
    (keySecret orderId paymentId signature : String) (booking : BookingDoc)
    (now : Int) :
    (hmacSha256 keySecret (orderId ++ "|" ++ paymentId) ≠ signature →
      verifyPayment hmacSha256 keySecret orderId paymentId signature booking
          now = Except.error "Payment verification failed" ∧
      storedAfterVerifyPayment hmacSha256 keySecret orderId paymentId
          signature booking now = booking) ∧
    (hmacSha256 keySecret (orderId ++ "|" ++ paymentId) = signature →
      booking.status = .pending →
      ∃ b', verifyPayment hmacSha256 keySecret orderId paymentId signature
          booking now = Except.ok b' ∧
        b'.status = .confirmed ∧
        b'.paymentStatus = .paid ∧
        b'.razorpayPaymentId = some paymentId ∧
        b'.razorpaySignature = some signature) := by
  constructor
  · intro hne
    have h : verifyPayment hmacSha256 keySecret orderId paymentId signature
        booking now = Except.error "Payment verification failed" := by
      unfold verifyPayment
      rw [if_neg hne]
    refine ⟨h, ?_⟩
    unfold storedAfterVerifyPayment
    rw [h]
  · intro heq _
    have h : verifyPayment hmacSha256 keySecret orderId paymentId signature
        booking now = Except.ok { booking with
          razorpayPaymentId := some paymentId,
          razorpaySignature := some signature,
          paymentStatus := .paid,
          status := .confirmed,
          paymentTimestamp := some now,
          statusHistory := booking.statusHistory ++
            [{ status := .confirmed, timestamp := now, actionBy := "system",
               notes := "Payment verified and booking confirmed" }] } := by
      unfold verifyPayment
      rw [if_pos heq]
    exact ⟨_, h, rfl, rfl, rfl, rfl⟩

/-- C6 witness: with an HMAC stub, a matching signature confirms the sample
pending booking and records the payment reference. -/
theorem payment_verification_witness :
    ∃ b', verifyPayment (fun _ _ => "sig") "secret" "ord1" "pay1" "sig"
        samplePending 100 = Except.ok b' ∧
      b'.status = .confirmed ∧
      b'.paymentStatus = .paid ∧
      b'.razorpayPaymentId = some "pay1" ∧
      b'.razorpaySignature = some "sig" :=
  (payment_verification (fun _ _ => "sig") "secret" "ord1" "pay1" "sig"
    samplePending 100).2 rfl rfl

theorem sum_if_single (c : Prop) [Decidable c] (e : ChargeEntry) :
    ((if c then [e] else []).map (fun x => x.amount)).sum =
      if c then e.amount else 0 := by
  by_cases h : c <;> simp [h]

/-- C5: on a return from `handed_over`, `in_use` or `overdue`, with a
handover snapshot, readings and notes supplied and no caller-supplied extra
charges, the recorded surcharge consists of exactly one entry per applicable
rule — fuel shortfall at `(handover − return)/100 × 4 × 500` on the 5-point
scale, `ceil(hours late) × 200`, `extraKm × 10` beyond `rentalDays × 300`,
and a flat 2000 damage charge on a case-insensitive damage keyword — the
total is their sum (0 when no rule applies), and it is added to the
booking's `totalAmount`. -/
theorem return_surcharges_correct (booking : BookingDoc) (req : ReturnRequest)
    (now : Int) (hd : HandoverData) (rl : FuelLevel) (cn : String)
    (hstatus : booking.status = .handed_over ∨ booking.status = .in_use ∨
      booking.status = .overdue)
    (hhd : booking.handoverData = some hd)
    (hfuel : req.fuelLevel = some rl)
    (hnotes : req.conditionNotes = some cn)
    (hadd : req.additionalCharges = none)
    (hodo1 : req.odometerReading ≠ 0)
    (hodo2 : hd.odometerReading ≠ 0)
    (hdays : booking.totalDays ≠ 0) :
    ∃ b', returnVehicle booking req now = Except.ok b' ∧
      b'.status = .returned ∧
      ∃ rd, b'.returnData = some rd ∧
        rd.additionalCharges =
          (if fuelLevels rl < fuelLevels hd.fuelLevel then
            [{ chargeType := "fuel_replacement",
               description := "Fuel replacement for " ++
                 toString (fuelLevels hd.fuelLevel - fuelLevels rl) ++
                 "% difference",
               amount := specFuelCharge (fuelLevels hd.fuelLevel)
                 (fuelLevels rl) }] else []) ++
          (if booking.dropoffDate < now then
            [{ chargeType := "late_return",
               description := "Late return by " ++
                 toString (specLateHours booking.dropoffDate now) ++ " hours",
               amount := ((specLateHours booking.dropoffDate now : Int) : ℚ) *
                 200 }] else []) ++
          (if 0 < specExtraKms hd.odometerReading req.odometerReading
              booking.totalDays then
            [{ chargeType := "extra_kilometers",
               description := toString (specExtraKms hd.odometerReading
                 req.odometerReading booking.totalDays) ++ " extra kilometers",
               amount := ((specExtraKms hd.odometerReading req.odometerReading
                 booking.totalDays : Int) : ℚ) * 10 }] else []) ++
          (if strIncludesLower cn "damage" then
            [{ chargeType := "damage_charge",
               description := "Vehicle damage noted",
               amount := 2000 }] else []) ∧
        rd.totalAdditionalCharges =
          (if fuelLevels rl < fuelLevels hd.fuelLevel then
            specFuelCharge (fuelLevels hd.fuelLevel) (fuelLevels rl) else 0) +
          (if booking.dropoffDate < now then
            ((specLateHours booking.dropoffDate now : Int) : ℚ) * 200 else 0) +
          (if 0 < specExtraKms hd.odometerReading req.odometerReading
              booking.totalDays then
            ((specExtraKms hd.odometerReading req.odometerReading
              booking.totalDays : Int) : ℚ) * 10 else 0) +
          (if strIncludesLower cn "damage" then 2000 else 0) ∧
        b'.totalAmount = booking.totalAmount + rd.totalAdditionalCharges := by
  have hcomp : computeReturnCharges booking req now =
      ((if fuelLevels rl < fuelLevels hd.fuelLevel then
          [{ chargeType := "fuel_replacement",
             description := "Fuel replacement for " ++
               toString (fuelLevels hd.fuelLevel - fuelLevels rl) ++
               "% difference",
             amount := specFuelCharge (fuelLevels hd.fuelLevel)
               (fuelLevels rl) }] else []) ++
        (if booking.dropoffDate < now then
          [{ chargeType := "late_return",
             description := "Late return by " ++
               toString (specLateHours booking.dropoffDate now) ++ " hours",
             amount := ((specLateHours booking.dropoffDate now : Int) : ℚ) *
               200 }] else []) ++
        (if 0 < specExtraKms hd.odometerReading req.odometerReading
            booking.totalDays then
          [{ chargeType := "extra_kilometers",
             description := toString (specExtraKms hd.odometerReading
               req.odometerReading booking.totalDays) ++ " extra kilometers",
             amount := ((specExtraKms hd.odometerReading req.odometerReading
               booking.totalDays : Int) : ℚ) * 10 }] else []) ++
        (if strIncludesLower cn "damage" then
          [{ chargeType := "damage_charge",
             description := "Vehicle damage noted",
             amount := 2000 }] else []),
        (if fuelLevels rl < fuelLevels hd.fuelLevel then
          specFuelCharge (fuelLevels hd.fuelLevel) (fuelLevels rl) else 0) +
        (if booking.dropoffDate < now then
          ((specLateHours booking.dropoffDate now : Int) : ℚ) * 200 else 0) +
        (if 0 < specExtraKms hd.odometerReading req.odometerReading
            booking.totalDays then
          ((specExtraKms hd.odometerReading req.odometerReading
            booking.totalDays : Int) : ℚ) * 10 else 0) +
        (if strIncludesLower cn "damage" then 2000 else 0)) := by
    simp only [computeReturnCharges, hadd, hfuel, hhd, hnotes, Option.getD,
      if_pos (And.intro hodo1 hodo2), if_neg hdays,
      specFuelCharge, specLateHours, specExtraKms]
    rw [Prod.mk.injEq]
    constructor
    · simp only [List.nil_append]
    · simp [sum_if_single]
  have hok : returnVehicle booking req now = Except.ok { booking with
      status := .returned,
      returnData := some
        { odometerReading := req.odometerReading,
          fuelLevel := req.fuelLevel.getD .full,
          conditionNotes := req.conditionNotes.getD "Good condition",
          returnStatus := req.returnStatus.getD "good",
          additionalCharges := (computeReturnCharges booking req now).1,
          totalAdditionalCharges := (computeReturnCharges booking req now).2,
          notes := req.notes.getD "",
          returnedBy := req.returnedBy.getD "admin",
          returnedAt := now },
      totalAmount := booking.totalAmount + (computeReturnCharges booking req now).2,
      statusHistory := booking.statusHistory ++
        [{ status := .returned, timestamp := now,
           actionBy := req.returnedBy.getD "admin",
           notes := "Vehicle returned by customer" }] } := by
    unfold returnVehicle
    rw [if_neg (not_not_intro hstatus)]
  refine ⟨_, hok, rfl, ⟨_, rfl, ?_, ?_, ?_⟩⟩
  · rw [hcomp]
  · rw [hcomp]
  · rw [hcomp]

/-- C5 witness: returning the handed-over sample two hours late with half a
tank and 1000 km driven yields 1000 (fuel) + 400 (late) + 1000 (extra km)
= 2400, added to the total amount. -/
theorem return_surcharges_correct_witness :
    ∃ b', returnVehicle sampleHandedOver sampleReturnReq 7200000 =
        Except.ok b' ∧
      b'.status = .returned ∧
      ∃ rd, b'.returnData = some rd ∧
        rd.totalAdditionalCharges = 2400 ∧
        b'.totalAmount = 5000 + 2400 := by
  obtain ⟨b', h1, h2, rd, h3, _, h5, h6⟩ :=
    return_surcharges_correct sampleHandedOver sampleReturnReq 7200000
      { odometerReading := 10000, fuelLevel := .full,
        conditionNotes := "Good condition", handedOverBy := "admin",
        customerSignature := "digital_acceptance", handedOverAt := 0 }
      .half "Good condition" (Or.inl rfl) rfl rfl rfl rfl (by decide)
      (by decide) (by decide)
  have hdmg : strIncludesLower "Good condition" "damage" = false := by decide
  refine ⟨b', h1, h2, rd, h3, ?_, ?_⟩
  · rw [h5, hdmg]
    norm_num [specFuelCharge, specLateHours, specExtraKms, fuelLevels,
      sampleHandedOver, sampleReturnReq]
  · rw [h6, h5, hdmg]
    norm_num [specFuelCharge, specLateHours, specExtraKms, fuelLevels,
      sampleHandedOver, sampleReturnReq]

/-- The filter on bookings used by the fleet-wide endpoint. -/
theorem fleet_booking_filter_iff (b : Booking) (startDate endDate : Int) :
    (decide (b.pickupDate ≤ endDate) && decide (startDate ≤ b.dropoffDate) &&
      [BStatus.confirmed, .handed_over, .in_use].contains b.status) = true ↔
    (b.pickupDate ≤ endDate ∧ startDate ≤ b.dropoffDate ∧
      (b.status = .confirmed ∨ b.status = .handed_over ∨ b.status = .in_use)) := by
  simp only [Bool.and_eq_true, decide_eq_true_eq, List.elem_iff, List.mem_cons,
    List.mem_singleton, List.not_mem_nil, or_false]
  tauto

/-- Membership in the fleet endpoint's `availableVehicleIds` payload. -/
theorem fleet_mem_iff (vehicles : List Vehicle) (bookings : List Booking)
    (startDate endDate : Int) (i : Nat) :
    i ∈ ((vehicles.filter (fun v => v.isAvailable)).filter
        (fun v => ! ((bookings.filter (fun b =>
            decide (b.pickupDate ≤ endDate) && decide (startDate ≤ b.dropoffDate) &&
            [BStatus.confirmed, .handed_over, .in_use].contains b.status)).map
          (fun b => b.vehicleId)).contains v.id)).map (fun v => v.id) ↔
      ((∃ w ∈ vehicles, w.isAvailable = true ∧ w.id = i) ∧
       ¬ ∃ b ∈ bookings, b.vehicleId = i ∧
         (b.status = .confirmed ∨ b.status = .handed_over ∨ b.status = .in_use) ∧
         b.pickupDate ≤ endDate ∧ startDate ≤ b.dropoffDate) := by
  have hbooked : ∀ j : Nat, ((bookings.filter (fun b =>
      decide (b.pickupDate ≤ endDate) && decide (startDate ≤ b.dropoffDate) &&
      [BStatus.confirmed, .handed_over, .in_use].contains b.status)).map
        (fun b => b.vehicleId)).contains j = true ↔
      (∃ b ∈ bookings, b.vehicleId = j ∧
        (b.status = .confirmed ∨ b.status = .handed_over ∨ b.status = .in_use) ∧
        b.pickupDate ≤ endDate ∧ startDate ≤ b.dropoffDate) := by
    intro j
    rw [List.elem_iff]
    simp only [List.mem_map, List.mem_filter]
    constructor
    · rintro ⟨b, ⟨hb, hp⟩, rfl⟩
      rcases (fleet_booking_filter_iff b startDate endDate).mp hp with ⟨h1, h2, h3⟩
      exact ⟨b, hb, rfl, h3, h1, h2⟩
    · rintro ⟨b, hb, rfl, h3, h1, h2⟩
      exact ⟨b, ⟨hb, (fleet_booking_filter_iff b startDate endDate).mpr
        ⟨h1, h2, h3⟩⟩, rfl⟩
  constructor
  · intro hmem
    rcases List.mem_map.mp hmem with ⟨w, hw, rfl⟩
    rcases List.mem_filter.mp hw with ⟨hw1, hw2⟩
    rcases List.mem_filter.mp hw1 with ⟨hwv, hwav⟩
    refine ⟨⟨w, hwv, hwav, rfl⟩, ?_⟩
    intro hex
    rw [Bool.not_eq_true', ← Bool.not_eq_true] at hw2
    exact hw2 ((hbooked w.id).mpr hex)
  · rintro ⟨⟨w, hwv, hwav, rfl⟩, hnb⟩
    refine List.mem_map.mpr ⟨w, List.mem_filter.mpr
      ⟨List.mem_filter.mpr ⟨hwv, hwav⟩, ?_⟩, rfl⟩
    rw [Bool.not_eq_true', ← Bool.not_eq_true]
    intro hc
    exact hnb ((hbooked w.id).mp hc)

/-- C9: the fleet-wide endpoint is binary — with a valid range it lists
exactly the `isAvailable` vehicles with no overlapping booking in
{confirmed, handed_over, in_use}, regardless of `quantity`; a vehicle with
`quantity > 1` and exactly one overlapping confirmed booking is therefore
excluded even though the unit-level computation reports `quantity − 1` free
units; and `overdue` bookings never affect the endpoint's result. -/
theorem fleet_availability_binary (vehicles : List Vehicle)
    (bookings : List Booking) (startDate endDate now : Int)
    (vid : Nat) (v : Vehicle) (b0 : Booking) (result : List Nat)
    (hse : startDate < endDate) (hnow : ¬ startDate < now)
    (hres : fleetAvailability vehicles bookings startDate endDate now =
      some result)
    (hfind : vehicles.find? (fun w => w.id = vid) = some v)
    (hQ : 1 < v.quantity) (_hav : v.isAvailable = true)
    (hone : bookings.filter
      (fun b => matchesQuery b vid startDate endDate none) = [b0])
    (hb0 : b0.status = .confirmed)
    (hwf : b0.pickupDate ≤ b0.dropoffDate) :
    (∀ i : Nat, i ∈ result ↔
      ((∃ w ∈ vehicles, w.isAvailable = true ∧ w.id = i) ∧
       ¬ ∃ b ∈ bookings, b.vehicleId = i ∧
         (b.status = .confirmed ∨ b.status = .handed_over ∨ b.status = .in_use) ∧
         b.pickupDate ≤ endDate ∧ startDate ≤ b.dropoffDate)) ∧
    vid ∉ result ∧
    (checkVehicleAvailability vehicles bookings vid startDate endDate
      none).availableQuantity = v.quantity - 1 ∧
    (∀ b : Booking, b.status = .overdue →
      fleetAvailability vehicles (b :: bookings) startDate endDate now =
        fleetAvailability vehicles bookings startDate endDate now) := by
  have hresult : result =
      ((vehicles.filter (fun v => v.isAvailable)).filter
        (fun v => ! ((bookings.filter (fun b =>
            decide (b.pickupDate ≤ endDate) && decide (startDate ≤ b.dropoffDate) &&
            [BStatus.confirmed, .handed_over, .in_use].contains b.status)).map
          (fun b => b.vehicleId)).contains v.id)).map (fun v => v.id) := by
    unfold fleetAvailability at hres
    rw [if_neg (by omega), if_neg hnow] at hres
    exact (Option.some.inj hres).symm
  have hchar : ∀ i : Nat, i ∈ result ↔
      ((∃ w ∈ vehicles, w.isAvailable = true ∧ w.id = i) ∧
       ¬ ∃ b ∈ bookings, b.vehicleId = i ∧
         (b.status = .confirmed ∨ b.status = .handed_over ∨ b.status = .in_use) ∧
         b.pickupDate ≤ endDate ∧ startDate ≤ b.dropoffDate) := by
    intro i
    rw [hresult]
    exact fleet_mem_iff vehicles bookings startDate endDate i
  -- facts about the single overlapping booking
  have hb0mem : b0 ∈ bookings.filter
      (fun b => matchesQuery b vid startDate endDate none) := by
    rw [hone]
    exact List.mem_cons_self b0 []
  rcases List.mem_filter.mp hb0mem with ⟨hb0in, hb0q⟩
  have hb0parts : b0.vehicleId = vid ∧ b0.pickupDate ≤ endDate ∧
      startDate ≤ b0.dropoffDate := by
    unfold matchesQuery overlapsRange at hb0q
    simp only [Bool.and_eq_true, decide_eq_true_eq] at hb0q
    obtain ⟨⟨⟨h1, -⟩, h2, h3⟩, -⟩ := hb0q
    exact ⟨h1, h2, h3⟩
  refine ⟨hchar, ?_, ?_, ?_⟩
  · intro hvmem
    rcases (hchar vid).mp hvmem with ⟨_, hnb⟩
    exact hnb ⟨b0, hb0in, hb0parts.1, Or.inl hb0, hb0parts.2.1, hb0parts.2.2⟩
  · have hcf := checkVehicleAvailability_closed_form vehicles bookings vid
      startDate endDate none v hfind (by omega)
    rw [hone] at hcf
    have hM : maxOccupancy [b0] startDate endDate = 1 := by
      have hub : maxOccupancy [b0] startDate endDate ≤ 1 := by
        unfold maxOccupancy
        apply foldl_max_le (by omega)
        intro x hx
        rcases List.mem_map.mp hx with ⟨d, _, rfl⟩
        have : occupancy [b0] d ≤ ([b0] : List Booking).length :=
          List.length_filter_le _ _
        simpa using this
      have hlb : 1 ≤ maxOccupancy [b0] startDate endDate := by
        have hocc : occupancy [b0] (max startDate b0.pickupDate) = 1 := by
          rw [occupancy_cons]
          have hcov : b0.pickupDate ≤ max startDate b0.pickupDate ∧
              max startDate b0.pickupDate ≤ b0.dropoffDate :=
            ⟨le_max_right _ _, max_le hb0parts.2.2 hwf⟩
          simp [occupancy, hcov]
        calc 1 = occupancy [b0] (max startDate b0.pickupDate) := hocc.symm
          _ ≤ maxOccupancy [b0] startDate endDate :=
            occupancy_le_maxOccupancy _ (le_max_left _ _)
              (max_le (by omega) hb0parts.2.1)
      omega
    rw [hcf]
    dsimp only
    rw [hM]
    have : v.quantity - ((1 : Nat) : Int) = v.quantity - 1 := by norm_num
    rw [this]
    exact max_eq_right (by omega)
  · intro b hb
    unfold fleetAvailability
    rw [if_neg (by omega), if_neg hnow, if_neg (by omega), if_neg hnow]
    have hfil : (b :: bookings).filter (fun x =>
        decide (x.pickupDate ≤ endDate) && decide (startDate ≤ x.dropoffDate) &&
        [BStatus.confirmed, .handed_over, .in_use].contains x.status) =
        bookings.filter (fun x =>
        decide (x.pickupDate ≤ endDate) && decide (startDate ≤ x.dropoffDate) &&
        [BStatus.confirmed, .handed_over, .in_use].contains x.status) := by
      rw [List.filter_cons]
      simp [hb]
    rw [hfil]

/-- C9 witness: one vehicle of quantity 2 with a single overlapping
confirmed booking — the fleet endpoint excludes it while the unit-level
computation still reports one free unit. -/
theorem fleet_availability_binary_witness :
    (1 : Nat) ∉ ([] : List Nat) ∧
    (checkVehicleAvailability [⟨1, 2, true⟩] [⟨10, 1, .confirmed, 5, 10⟩]
      1 8 12 none).availableQuantity = 2 - 1 :=
  ⟨((fleet_availability_binary [⟨1, 2, true⟩] [⟨10, 1, .confirmed, 5, 10⟩]
      8 12 0 1 ⟨1, 2, true⟩ ⟨10, 1, .confirmed, 5, 10⟩ [] (by decide)
      (by decide) (by decide) (by decide) (by decide) (by decide) (by decide)
      (by decide) (by decide)).2.1),
   ((fleet_availability_binary [⟨1, 2, true⟩] [⟨10, 1, .confirmed, 5, 10⟩]
      8 12 0 1 ⟨1, 2, true⟩ ⟨10, 1, .confirmed, 5, 10⟩ [] (by decide)
      (by decide) (by decide) (by decide) (by decide) (by decide) (by decide)
      (by decide) (by decide)).2.2.1)⟩

end MjCar
